import Mathlib

/-!
# Forwarding stubs of `Docker/glibc-wrappers/wrapper64_glibc.h`

The header defines two functions, `fcntl64` and `posix_fallocate64`, each of
which hands its arguments to the C library function of the unsuffixed name.

The embedding below keeps the C types of the source:

* `int` is a 32-bit two's-complement integer (`CInt`);
* `long` is a two's-complement integer of `longBits` bits (`CLong longBits`),
  the width being a parameter of the development;
* `void *` is an address (`Ptr`);
* the C library the stubs call into is a record `Libc` of state transformers
  over an arbitrary state type `σ`; the state stands for everything the
  library call may read or change (descriptor table, files, `errno`);
* the variable argument list is modelled by `va_list`, with `va_start`,
  `va_arg` and `va_end` as the operations the source performs on it.
-/

namespace Wrapper64

/-! ## Machine integers -/

/-- Signed two's-complement integers of `bits` bits: the integers `v` with
`-2^(bits-1) ≤ v < 2^(bits-1)`. -/
@[ext]
structure SInt (bits : Nat) where
  val : Int
  lo : -((2 ^ (bits - 1) : Nat) : Int) ≤ val
  hi : val < ((2 ^ (bits - 1) : Nat) : Int)
deriving DecidableEq

/-- The value of the signed type of `bits` bits that an integer constant `v`
denotes: `v` reduced modulo `2^bits` into the representable range (`v` itself
when it is representable). -/
def SInt.ofInt (bits : Nat) (v : Int) : SInt bits :=
  ⟨(v + ((2 ^ (bits - 1) : Nat) : Int)) % (2 * ((2 ^ (bits - 1) : Nat) : Int))
      - ((2 ^ (bits - 1) : Nat) : Int),
    by
      have hpos : (0 : Int) < ((2 ^ (bits - 1) : Nat) : Int) := by positivity
      have := Int.emod_nonneg (v + ((2 ^ (bits - 1) : Nat) : Int))
        (show (2 * ((2 ^ (bits - 1) : Nat) : Int)) ≠ 0 by omega)
      omega,
    by
      have hpos : (0 : Int) < ((2 ^ (bits - 1) : Nat) : Int) := by positivity
      have := Int.emod_lt_of_pos (v + ((2 ^ (bits - 1) : Nat) : Int))
        (show (0 : Int) < 2 * ((2 ^ (bits - 1) : Nat) : Int) by omega)
      omega⟩

/-- The C type `int`. -/
abbrev CInt : Type := SInt 32

/-- The C type `long`, of `longBits` bits. -/
abbrev CLong (longBits : Nat) : Type := SInt longBits

/-- The C type `void *`: an address. -/
abbrev Ptr : Type := Nat

/-! ## The C library the stubs call into -/

/-- The two library functions the header refers to, as transformers of the
library state `σ`.  `fcntl` is the function of `<fcntl.h>`, called by the
source with three arguments; `posix_fallocate` has the prototype the header
itself declares: `int posix_fallocate(int fd, long offset, long len)`. -/
structure Libc (longBits : Nat) (σ : Type) where
  fcntl : CInt → CInt → Ptr → σ → CInt × σ
  posix_fallocate : CInt → CLong longBits → CLong longBits → σ → CInt × σ

/-! ## Variable argument lists (`<stdarg.h>`) -/

/-- State of a traversal of the variable arguments of a call: the arguments
the caller supplied that have not been extracted yet, and the content of the
argument slot that is read once the supplied arguments are used up (a value
the caller did not choose). -/
structure va_list where
  pending : List Ptr
  slot : Ptr
deriving DecidableEq

/-- Model of `va_start(args, cmd)`: start the traversal at the first argument
after the last named parameter. -/
def va_start (tail : List Ptr) (slot : Ptr) : va_list :=
  { pending := tail, slot := slot }

/-- Model of `va_arg(args, void *)`: yield the next argument as a `void *` and
advance.  With no supplied argument left, the slot content is what is read. -/
def va_arg (ap : va_list) : Ptr × va_list :=
  match ap.pending with
  | a :: rest => (a, { ap with pending := rest })
  | [] => (ap.slot, ap)

/-- Model of `va_end(args)`: ends the traversal; it yields nothing. -/
def va_end (_ap : va_list) : Unit := ()

/-! ## The two stubs -/

/-- Embedding of
```c
int fcntl64(int fd, int cmd, ...) {
    va_list args;
    va_start(args, cmd);
    void *arg = va_arg(args, void *);
    va_end(args);
    return fcntl(fd, cmd, arg);
}
```
`tail` is the list of variable arguments of the call and `slot` the content of
the first argument slot after them. -/
def fcntl64 {longBits : Nat} {σ : Type} (libc : Libc longBits σ)
    (fd cmd : CInt) (tail : List Ptr) (slot : Ptr) (s : σ) : CInt × σ :=
  let args := va_start tail slot
  let (arg, args) := va_arg args
  let _ := va_end args
  libc.fcntl fd cmd arg s

/-- Embedding of
```c
int posix_fallocate64(int fd, long offset, long len) {
    return posix_fallocate(fd, offset, len);
}
``` -/
def posix_fallocate64 {longBits : Nat} {σ : Type} (libc : Libc longBits σ)
    (fd : CInt) (offset len : CLong longBits) (s : σ) : CInt × σ :=
  libc.posix_fallocate fd offset len s

/-! ## Call traces -/

/-- A recorded call of a library function, with the arguments it received. -/
inductive Call (longBits : Nat) where
  | fcntl (fd cmd : CInt) (arg : Ptr)
  | posix_fallocate (fd : CInt) (offset len : CLong longBits)
deriving DecidableEq

/-- The library `libc` instrumented with a call trace: every call of a library
function appends one record to the trace and otherwise behaves as in `libc`. -/
def Libc.traced {longBits : Nat} {σ : Type} (libc : Libc longBits σ) :
    Libc longBits (σ × List (Call longBits)) where
  fcntl fd cmd arg st :=
    ((libc.fcntl fd cmd arg st.1).1,
      ((libc.fcntl fd cmd arg st.1).2, st.2 ++ [Call.fcntl fd cmd arg]))
  posix_fallocate fd offset len st :=
    ((libc.posix_fallocate fd offset len st.1).1,
      ((libc.posix_fallocate fd offset len st.1).2,
        st.2 ++ [Call.posix_fallocate fd offset len]))

/-! ## Sequences of stub calls -/

/-- One call of one of the two stubs, with its arguments. -/
inductive StubCall (longBits : Nat) where
  | fcntl64 (fd cmd : CInt) (tail : List Ptr) (slot : Ptr)
  | posix_fallocate64 (fd : CInt) (offset len : CLong longBits)
deriving DecidableEq

/-- Perform a stub call in state `s`. -/
def StubCall.run {longBits : Nat} {σ : Type} (libc : Libc longBits σ) :
    StubCall longBits → σ → CInt × σ
  | .fcntl64 fd cmd tail slot, s => Wrapper64.fcntl64 libc fd cmd tail slot s
  | .posix_fallocate64 fd offset len, s =>
    Wrapper64.posix_fallocate64 libc fd offset len s

/-- Perform a sequence of stub calls, first to last, and yield the state
reached. -/
def runHistory {longBits : Nat} {σ : Type} (libc : Libc longBits σ) :
    List (StubCall longBits) → σ → σ
  | [], s => s
  | c :: cs, s => runHistory libc cs (c.run libc s).2

/-- Specification counterpart of `StubCall.run`: the library function of the
unsuffixed name applied to the arguments of the call, the third argument of
`fcntl` being the first variable argument (or the slot content when there is
none). -/
def StubCall.delegate {longBits : Nat} {σ : Type} (libc : Libc longBits σ) :
    StubCall longBits → σ → CInt × σ
  | .fcntl64 fd cmd tail slot, s => libc.fcntl fd cmd (tail.headD slot) s
  | .posix_fallocate64 fd offset len, s => libc.posix_fallocate fd offset len s

/-- Specification counterpart of `runHistory`: the state reached by calling
the library functions directly. -/
def delegateHistory {longBits : Nat} {σ : Type} (libc : Libc longBits σ) :
    List (StubCall longBits) → σ → σ
  | [], s => s
  | c :: cs, s => delegateHistory libc cs (c.delegate libc s).2

/-! ## A small library instance

A concrete `Libc` over a concrete state, used to evaluate the stubs on
concrete inputs.  It is a stand-in for the C library, which is not part of the
header: descriptors map to files with a size and status flags. -/

/-- A file open on a descriptor. -/
structure ToyFile where
  size : Nat
  flags : Int
deriving DecidableEq

/-- State of the stand-in library: `errno` and the table of open
descriptors. -/
structure ToyState where
  errno : Int
  files : List (Int × ToyFile)
deriving DecidableEq

/-- Replace the file open on descriptor `fd`. -/
def ToyState.setFile (s : ToyState) (fd : Int) (f : ToyFile) : ToyState :=
  { s with files := s.files.map (fun e => if e.1 = fd then (fd, f) else e) }

/-- Size of the file open on `fd` (0 when `fd` is not open). -/
def ToyState.sizeOf (s : ToyState) (fd : CInt) : Nat :=
  match s.files.lookup fd.val with
  | some f => f.size
  | none => 0

/-- Command code of `F_GETFL` on Linux. -/
def F_GETFL : CInt := SInt.ofInt 32 3

/-- Command code of `F_SETFL` on Linux. -/
def F_SETFL : CInt := SInt.ofInt 32 4

/-- Command code of `F_SETLK` on Linux. -/
def F_SETLK : CInt := SInt.ofInt 32 6

/-- Open flag `O_RDWR`. -/
def O_RDWR : Int := 2

/-- Error code "bad file descriptor". -/
def EBADF : Int := 9

/-- Error code "invalid argument". -/
def EINVAL : Int := 22

/-- Stand-in `fcntl`: fails with `EBADF` on a descriptor that is not open;
`F_GETFL` yields the status flags and does not look at the third argument;
`F_SETFL` stores the third argument as the flags; other commands succeed. -/
def toyFcntl (fd cmd : CInt) (arg : Ptr) (s : ToyState) : CInt × ToyState :=
  match s.files.lookup fd.val with
  | none => (SInt.ofInt 32 (-1), { s with errno := EBADF })
  | some f =>
    if cmd.val = 3 then (SInt.ofInt 32 f.flags, s)
    else if cmd.val = 4 then (SInt.ofInt 32 0, s.setFile fd.val { f with flags := arg })
    else (SInt.ofInt 32 0, s)

/-- Stand-in `posix_fallocate`: yields `EINVAL` for a negative offset or a
length that is not positive, `EBADF` for a descriptor that is not open, and
otherwise 0 after growing the file to at least `offset + len` bytes. -/
def toyPosixFallocate {longBits : Nat} (fd : CInt) (offset len : CLong longBits)
    (s : ToyState) : CInt × ToyState :=
  if offset.val < 0 ∨ len.val ≤ 0 then (SInt.ofInt 32 EINVAL, s)
  else
    match s.files.lookup fd.val with
    | none => (SInt.ofInt 32 EBADF, s)
    | some f =>
      (SInt.ofInt 32 0,
        s.setFile fd.val { f with size := max f.size (offset.val + len.val).toNat })

/-- The stand-in library. -/
def toyLibc (longBits : Nat) : Libc longBits ToyState where
  fcntl := toyFcntl
  posix_fallocate := toyPosixFallocate

/-- A state with descriptor 3 open read-write on an empty file. -/
def toyState : ToyState :=
  { errno := 0, files := [(3, { size := 0, flags := O_RDWR })] }

/-- A command for which the library `fcntl` does not look at its third
argument: whatever is passed there, result and final state are the same. -/
def ignoresThirdArg {longBits : Nat} {σ : Type} (libc : Libc longBits σ)
    (cmd : CInt) : Prop :=
  ∀ (fd : CInt) (a b : Ptr) (s : σ), libc.fcntl fd cmd a s = libc.fcntl fd cmd b s

/-! ## Lemmas on the stubs -/

/-- The one extraction `fcntl64` performs yields the first variable argument,
or the slot content when the caller supplied none. -/
theorem va_arg_va_start (tail : List Ptr) (slot : Ptr) :
    (va_arg (va_start tail slot)).1 = tail.headD slot := by
  cases tail <;> rfl

/-- The stub `fcntl64` computes the library call on the extracted argument. -/
theorem fcntl64_eq {longBits : Nat} {σ : Type} (libc : Libc longBits σ)
    (fd cmd : CInt) (tail : List Ptr) (slot : Ptr) (s : σ) :
    fcntl64 libc fd cmd tail slot s = libc.fcntl fd cmd (tail.headD slot) s := by
  cases tail <;> rfl

/-- A stub call computes what the library call of the unsuffixed name does. -/
theorem StubCall.run_eq_delegate {longBits : Nat} {σ : Type} (libc : Libc longBits σ)
    (c : StubCall longBits) (s : σ) : c.run libc s = c.delegate libc s := by
  cases c with
  | fcntl64 fd cmd tail slot => exact fcntl64_eq libc fd cmd tail slot s
  | posix_fallocate64 fd offset len => rfl

/-- A sequence of stub calls reaches the state the direct library calls
reach. -/
theorem runHistory_eq_delegateHistory {longBits : Nat} {σ : Type}
    (libc : Libc longBits σ) (h : List (StubCall longBits)) (s : σ) :
    runHistory libc h s = delegateHistory libc h s := by
  induction h generalizing s with
  | nil => rfl
  | cons c cs ih =>
    show runHistory libc cs (c.run libc s).2 = delegateHistory libc cs (c.delegate libc s).2
    rw [StubCall.run_eq_delegate, ih]

/-- The stand-in `fcntl` does not look at its third argument for `F_GETFL`. -/
theorem toyLibc_ignoresThirdArg_F_GETFL (longBits : Nat) :
    ignoresThirdArg (toyLibc longBits) F_GETFL := by
  intro fd a b s
  show toyFcntl fd F_GETFL a s = toyFcntl fd F_GETFL b s
  unfold toyFcntl
  cases s.files.lookup fd.val with
  | none => rfl
  | some f =>
    have h3 : F_GETFL.val = 3 := by decide
    simp only [h3, if_true]

/-! ## The claims -/

/-- C1: for every library `fcntl`, every descriptor `fd`, command `cmd` and
supplied third argument `arg` (followed by any further arguments), the integer
`fcntl64(fd, cmd, arg)` returns is the integer `fcntl(fd, cmd, arg)` returns in
the same state. -/
theorem fcntl64_returns_fcntl {longBits : Nat} {σ : Type} (libc : Libc longBits σ)
    (fd cmd : CInt) (arg : Ptr) (rest : List Ptr) (slot : Ptr) (s : σ) :
    (fcntl64 libc fd cmd (arg :: rest) slot s).1 = (libc.fcntl fd cmd arg s).1 :=
  rfl

/-- C2: for every library `posix_fallocate` and every triple
`(fd, offset, len)`, `posix_fallocate64` returns the integer
`posix_fallocate` returns for that triple in the same state, and the triple
the library function receives is the one the stub received: nothing is
rejected or altered. -/
theorem posix_fallocate64_returns_posix_fallocate {longBits : Nat} {σ : Type}
    (libc : Libc longBits σ) (fd : CInt) (offset len : CLong longBits) (s : σ)
    (t : List (Call longBits)) :
    (posix_fallocate64 libc fd offset len s).1 = (libc.posix_fallocate fd offset len s).1
    ∧ (posix_fallocate64 libc.traced fd offset len (s, t)).2.2
        = t ++ [Call.posix_fallocate fd offset len] :=
  ⟨rfl, rfl⟩

/-- C3: with `errno` read off the state, `fcntl64` returns a negative value
exactly when `fcntl` does on the same triple, the `errno` it leaves is the one
`fcntl` left (so a `-1` with error code `code` from `fcntl` is a `-1` with
`code` from `fcntl64`), and `fcntl64` does not fail when `fcntl` succeeds. -/
theorem fcntl64_propagates_errors {longBits : Nat} {σ : Type} (libc : Libc longBits σ)
    (errno : σ → Int) (fd cmd : CInt) (arg : Ptr) (rest : List Ptr) (slot : Ptr)
    (s : σ) (code : Int) :
    ((fcntl64 libc fd cmd (arg :: rest) slot s).1.val < 0
        ↔ (libc.fcntl fd cmd arg s).1.val < 0)
    ∧ errno (fcntl64 libc fd cmd (arg :: rest) slot s).2
        = errno (libc.fcntl fd cmd arg s).2
    ∧ ((libc.fcntl fd cmd arg s).1.val = -1 ∧ errno (libc.fcntl fd cmd arg s).2 = code →
        (fcntl64 libc fd cmd (arg :: rest) slot s).1.val = -1
          ∧ errno (fcntl64 libc fd cmd (arg :: rest) slot s).2 = code)
    ∧ (0 ≤ (libc.fcntl fd cmd arg s).1.val →
        0 ≤ (fcntl64 libc fd cmd (arg :: rest) slot s).1.val) :=
  ⟨Iff.rfl, rfl, fun h => h, fun h => h⟩

/-- Witness of C3 on the stand-in library: `F_SETLK` on the descriptor `-1`,
which is not open, yields `-1` with `EBADF` from `fcntl`, hence from
`fcntl64`. -/
theorem fcntl64_propagates_errors_witness :
    ((toyLibc 64).fcntl (SInt.ofInt 32 (-1)) F_SETLK 4096 toyState).1.val = -1
    ∧ ((toyLibc 64).fcntl (SInt.ofInt 32 (-1)) F_SETLK 4096 toyState).2.errno = EBADF
    ∧ (fcntl64 (toyLibc 64) (SInt.ofInt 32 (-1)) F_SETLK [4096] 0 toyState).1.val = -1
    ∧ (fcntl64 (toyLibc 64) (SInt.ofInt 32 (-1)) F_SETLK [4096] 0 toyState).2.errno = EBADF :=
  ⟨by decide, by decide,
    (fcntl64_propagates_errors (toyLibc 64) ToyState.errno (SInt.ofInt 32 (-1)) F_SETLK
      4096 [] 0 toyState EBADF).2.2.1 ⟨by decide, by decide⟩⟩

/-- C4: `posix_fallocate64` returns zero exactly when `posix_fallocate`
returns zero on the same triple, and in every case returns the same code; in
particular `posix_fallocate64(-1, 0, 1)` is `posix_fallocate(-1, 0, 1)`,
result and state, the stub validating nothing. -/
theorem posix_fallocate64_propagates_errors {longBits : Nat} {σ : Type}
    (libc : Libc longBits σ) (fd : CInt) (offset len : CLong longBits) (s : σ) :
    ((posix_fallocate64 libc fd offset len s).1.val = 0
        ↔ (libc.posix_fallocate fd offset len s).1.val = 0)
    ∧ (posix_fallocate64 libc fd offset len s).1 = (libc.posix_fallocate fd offset len s).1
    ∧ posix_fallocate64 libc (SInt.ofInt 32 (-1)) (SInt.ofInt longBits 0)
          (SInt.ofInt longBits 1) s
        = libc.posix_fallocate (SInt.ofInt 32 (-1)) (SInt.ofInt longBits 0)
          (SInt.ofInt longBits 1) s :=
  ⟨Iff.rfl, rfl, rfl⟩

/-- C5: the state after `fcntl64(fd, cmd, arg)` is the state after
`fcntl(fd, cmd, arg)`, and the state after `posix_fallocate64(fd, offset, len)`
is the state after `posix_fallocate(fd, offset, len)`.  Hence, with `size` the
file size read off the state: if `posix_fallocate(fd, 0, 4096)` on an empty
file returns 0 and leaves the file at least 4096 bytes long, so does
`posix_fallocate64(fd, 0, 4096)`. -/
theorem stubs_add_no_side_effects {longBits : Nat} {σ : Type} (libc : Libc longBits σ)
    (size : σ → CInt → Nat) (fd cmd : CInt) (arg : Ptr) (rest : List Ptr) (slot : Ptr)
    (fd2 : CInt) (offset len : CLong longBits) (s : σ) :
    (fcntl64 libc fd cmd (arg :: rest) slot s).2 = (libc.fcntl fd cmd arg s).2
    ∧ (posix_fallocate64 libc fd2 offset len s).2
        = (libc.posix_fallocate fd2 offset len s).2
    ∧ (size s fd2 = 0 →
        (libc.posix_fallocate fd2 (SInt.ofInt longBits 0) (SInt.ofInt longBits 4096) s).1.val
          = 0 →
        4096 ≤ size (libc.posix_fallocate fd2 (SInt.ofInt longBits 0)
          (SInt.ofInt longBits 4096) s).2 fd2 →
        (posix_fallocate64 libc fd2 (SInt.ofInt longBits 0)
            (SInt.ofInt longBits 4096) s).1.val = 0
          ∧ 4096 ≤ size (posix_fallocate64 libc fd2 (SInt.ofInt longBits 0)
            (SInt.ofInt longBits 4096) s).2 fd2) :=
  ⟨rfl, rfl, fun _ hret hsize => ⟨hret, hsize⟩⟩

/-- Witness of C5 on the stand-in library: descriptor 3 is open on an empty
file, `posix_fallocate(3, 0, 4096)` returns 0 and grows the file to 4096
bytes, and so does `posix_fallocate64(3, 0, 4096)`. -/
theorem stubs_add_no_side_effects_witness :
    toyState.sizeOf (SInt.ofInt 32 3) = 0
    ∧ ((toyLibc 64).posix_fallocate (SInt.ofInt 32 3) (SInt.ofInt 64 0)
        (SInt.ofInt 64 4096) toyState).1.val = 0
    ∧ 4096 ≤ ((toyLibc 64).posix_fallocate (SInt.ofInt 32 3) (SInt.ofInt 64 0)
        (SInt.ofInt 64 4096) toyState).2.sizeOf (SInt.ofInt 32 3)
    ∧ (posix_fallocate64 (toyLibc 64) (SInt.ofInt 32 3) (SInt.ofInt 64 0)
        (SInt.ofInt 64 4096) toyState).1.val = 0
    ∧ 4096 ≤ (posix_fallocate64 (toyLibc 64) (SInt.ofInt 32 3) (SInt.ofInt 64 0)
        (SInt.ofInt 64 4096) toyState).2.sizeOf (SInt.ofInt 32 3) :=
  ⟨by decide, by decide, by decide,
    (stubs_add_no_side_effects (toyLibc 64) ToyState.sizeOf (SInt.ofInt 32 3) F_GETFL 0 []
      0 (SInt.ofInt 32 3) (SInt.ofInt 64 0) (SInt.ofInt 64 4096) toyState).2.2
      (by decide) (by decide) (by decide)⟩

/-- C6: when the caller supplies no third argument, `fcntl64` reads the slot
content; for a command for which `fcntl` does not look at its third argument
the outcome of `fcntl64(fd, cmd)` is the same for every slot content and is the
outcome of `fcntl(fd, cmd)` called directly (whatever stands in the unused
third position). -/
theorem fcntl64_without_third_arg {longBits : Nat} {σ : Type} (libc : Libc longBits σ)
    (fd cmd : CInt) (s : σ) (hcmd : ignoresThirdArg libc cmd) (slot slot2 unused : Ptr) :
    fcntl64 libc fd cmd [] slot s = fcntl64 libc fd cmd [] slot2 s
    ∧ fcntl64 libc fd cmd [] slot s = libc.fcntl fd cmd unused s :=
  ⟨hcmd fd slot slot2 s, hcmd fd slot unused s⟩

/-- Witness of C6 on the stand-in library: on descriptor 3, opened read-write,
`fcntl64(3, F_GETFL)` yields the flags `O_RDWR` whatever the slot holds, as
`fcntl(3, F_GETFL)` does. -/
theorem fcntl64_without_third_arg_witness :
    ignoresThirdArg (toyLibc 64) F_GETFL
    ∧ (fcntl64 (toyLibc 64) (SInt.ofInt 32 3) F_GETFL [] 12345 toyState
        = fcntl64 (toyLibc 64) (SInt.ofInt 32 3) F_GETFL [] 77 toyState
      ∧ fcntl64 (toyLibc 64) (SInt.ofInt 32 3) F_GETFL [] 12345 toyState
        = (toyLibc 64).fcntl (SInt.ofInt 32 3) F_GETFL 0 toyState)
    ∧ (fcntl64 (toyLibc 64) (SInt.ofInt 32 3) F_GETFL [] 12345 toyState).1.val = O_RDWR :=
  ⟨toyLibc_ignoresThirdArg_F_GETFL 64,
    fcntl64_without_third_arg (toyLibc 64) (SInt.ofInt 32 3) F_GETFL toyState
      (toyLibc_ignoresThirdArg_F_GETFL 64) 12345 77 0,
    by decide⟩

/-- C8: `fcntl64` extracts one variable argument.  Two calls that agree on
`fd`, `cmd` and the first variable argument have the same outcome and hand the
same triple to `fcntl`, whatever further variable arguments (and slot content)
each has. -/
theorem fcntl64_single_extraction {longBits : Nat} {σ : Type} (libc : Libc longBits σ)
    (fd cmd : CInt) (arg : Ptr) (rest1 rest2 : List Ptr) (slot1 slot2 : Ptr) (s : σ)
    (t : List (Call longBits)) :
    fcntl64 libc fd cmd (arg :: rest1) slot1 s = fcntl64 libc fd cmd (arg :: rest2) slot2 s
    ∧ (fcntl64 libc.traced fd cmd (arg :: rest1) slot1 (s, t)).2.2
        = t ++ [Call.fcntl fd cmd arg]
    ∧ (fcntl64 libc.traced fd cmd (arg :: rest2) slot2 (s, t)).2.2
        = t ++ [Call.fcntl fd cmd arg]
    ∧ (va_arg (va_start (arg :: rest1) slot1)).2.pending = rest1 :=
  ⟨rfl, rfl, rfl, rfl⟩

/-- C9: over a library that records its calls, a call of `fcntl64` adds
exactly one record to the trace, a call of `fcntl` with the received `fd` and
`cmd` and the extracted argument, and a call of `posix_fallocate64` adds
exactly one record, a call of `posix_fallocate` with the received `fd`,
`offset` and `len`; this holds for every library, whatever its calls return. -/
theorem stubs_call_delegate_once {longBits : Nat} {σ : Type} (libc : Libc longBits σ)
    (fd cmd : CInt) (tail : List Ptr) (slot : Ptr) (fd2 : CInt)
    (offset len : CLong longBits) (st : σ × List (Call longBits)) :
    (fcntl64 libc.traced fd cmd tail slot st).2.2
        = st.2 ++ [Call.fcntl fd cmd (tail.headD slot)]
    ∧ (posix_fallocate64 libc.traced fd2 offset len st).2.2
        = st.2 ++ [Call.posix_fallocate fd2 offset len] := by
  refine ⟨?_, rfl⟩
  rw [fcntl64_eq]
  rfl

/-- C10: the stubs keep no state of their own.  Whatever stub calls were made
before, if two sequences of earlier calls end in equal library states, a stub
call with the same arguments has the same result and final state after both;
and that outcome is the outcome of the library function called directly in the
state the direct library calls reach. -/
theorem stubs_hold_no_state {longBits : Nat} {σ : Type} (libc : Libc longBits σ)
    (h1 h2 : List (StubCall longBits)) (s1 s2 : σ) (c : StubCall longBits)
    (hstate : runHistory libc h1 s1 = runHistory libc h2 s2) :
    c.run libc (runHistory libc h1 s1) = c.run libc (runHistory libc h2 s2)
    ∧ c.run libc (runHistory libc h1 s1) = c.delegate libc (delegateHistory libc h1 s1) := by
  refine ⟨by rw [hstate], ?_⟩
  rw [StubCall.run_eq_delegate, runHistory_eq_delegateHistory]

/-- Witness of C10 on the stand-in library: two different sequences of earlier
stub calls that both leave descriptor 3 on a file of 4096 bytes, followed by
`fcntl64(3, F_GETFL)`. -/
theorem stubs_hold_no_state_witness :
    runHistory (toyLibc 64)
        [StubCall.posix_fallocate64 (SInt.ofInt 32 3) (SInt.ofInt 64 0) (SInt.ofInt 64 4096)]
        toyState
      = runHistory (toyLibc 64)
        [StubCall.fcntl64 (SInt.ofInt 32 3) F_GETFL [] 5,
          StubCall.posix_fallocate64 (SInt.ofInt 32 3) (SInt.ofInt 64 0) (SInt.ofInt 64 100),
          StubCall.posix_fallocate64 (SInt.ofInt 32 3) (SInt.ofInt 64 100)
            (SInt.ofInt 64 3996)]
        toyState
    ∧ (StubCall.fcntl64 (SInt.ofInt 32 3) F_GETFL [] 9).run (toyLibc 64)
        (runHistory (toyLibc 64)
          [StubCall.posix_fallocate64 (SInt.ofInt 32 3) (SInt.ofInt 64 0)
            (SInt.ofInt 64 4096)]
          toyState)
      = (SInt.ofInt 32 O_RDWR,
          { errno := 0, files := [(3, { size := 4096, flags := O_RDWR })] }) := by
  have h := stubs_hold_no_state (toyLibc 64)
    [StubCall.posix_fallocate64 (SInt.ofInt 32 3) (SInt.ofInt 64 0) (SInt.ofInt 64 4096)]
    [StubCall.fcntl64 (SInt.ofInt 32 3) F_GETFL [] 5,
      StubCall.posix_fallocate64 (SInt.ofInt 32 3) (SInt.ofInt 64 0) (SInt.ofInt 64 100),
      StubCall.posix_fallocate64 (SInt.ofInt 32 3) (SInt.ofInt 64 100) (SInt.ofInt 64 3996)]
    toyState toyState (StubCall.fcntl64 (SInt.ofInt 32 3) F_GETFL [] 9) (by decide)
  exact ⟨by decide, h.2.trans (by decide)⟩

end Wrapper64
